import Mathlib

/-!
Shallow embedding of the bot lifecycle controller of the envoy-cluster
repository: the `bot-manager` edge function, the `bot-heartbeat` reconciler,
the `resource-metrics` aggregator, and the storage-layer triggers of the SQL
migrations (`check_bot_limit`, `validate_resource_limits`).

Conventions of the embedding:
* JS numbers carrying resource values are modelled as rationals (every value
  the code produces is a decimal fraction, exact in the rationals).
* Timestamps are epoch seconds as integers; the code's millisecond
  arithmetic (`hours * 60 * 60 * 1000`, `/ 1000`) becomes second arithmetic.
* Randomness, generated ids and clock reads are passed in explicitly as an
  environment, with `Math.random()` draws as rationals in `[0, 1)`.
* A fallible storage write is modelled by a `writeOk` flag in the
  environment (the code only observes success or failure of a write).
-/

namespace EnvoyCluster

/-- Status enum of public.bots (bot_status). -/
inductive BotStatus where
  | online | offline | deploying | error | stopped
deriving DecidableEq, Repr

/-- Platform enum (bot_platform). -/
inductive BotPlatform where
  | telegram | discord
deriving DecidableEq, Repr

/-- Runtime enum (bot_runtime). -/
inductive BotRuntime where
  | python | nodejs | php
deriving DecidableEq, Repr

def platformText : BotPlatform → String
  | .telegram => "telegram"
  | .discord => "discord"

def runtimeText : BotRuntime → String
  | .python => "python"
  | .nodejs => "nodejs"
  | .php => "php"

/-- One row of the public.bots table. -/
structure BotRow where
  id : String
  userId : String
  name : String
  platform : BotPlatform
  runtime : BotRuntime
  status : BotStatus
  containerId : Option String
  scriptContent : Option String
  cpuUsage : ℚ
  memoryUsage : ℚ
  uptimeSeconds : Int
  lastStartedAt : Option Int
deriving DecidableEq, Repr

/-- One row of public.bot_env_vars. -/
structure EnvVarRow where
  botId : String
  key : String
  value : String
deriving DecidableEq, Repr

/-- One row of public.bot_logs. -/
structure LogRow where
  botId : String
  level : String
  message : String
deriving DecidableEq, Repr

/-- One row of public.resource_history. -/
structure SampleRow where
  botId : String
  cpuUsage : ℚ
  memoryUsage : ℚ
  recordedAt : Int
deriving DecidableEq, Repr

/-- The durable store: the four tables the functions touch. -/
structure DbState where
  bots : List BotRow
  envVars : List EnvVarRow
  logs : List LogRow
  history : List SampleRow
deriving DecidableEq, Repr

/-- Trigger function validate_resource_limits: BEFORE INSERT OR UPDATE on
bots it clamps cpu_usage above 10 down to 10 and memory_usage above 50 down
to 50, and always returns the row (it never raises). -/
def validate_resource_limits (row : BotRow) : BotRow :=
  { row with
    cpuUsage := if row.cpuUsage > 10 then 10 else row.cpuUsage,
    memoryUsage := if row.memoryUsage > 50 then 50 else row.memoryUsage }

/-- Number of bot rows owned by a user (the count both quota checks run). -/
def botCountOf (σ : DbState) (uid : String) : Nat :=
  (σ.bots.filter (fun b => b.userId == uid)).length

/-- Trigger function check_bot_limit: BEFORE INSERT on bots it counts the
rows of NEW.user_id and raises when the count is already at least 3. -/
def check_bot_limit (σ : DbState) (row : BotRow) : Bool :=
  decide (botCountOf σ row.userId < 3)

/-- An INSERT into bots runs check_bot_limit (trigger enforce_bot_limit)
and then validate_resource_limits (trigger enforce_resource_limits); the
first can reject the row, the second only rewrites it. -/
def insertBotRow (σ : DbState) (row : BotRow) : Except String DbState :=
  if check_bot_limit σ row then
    .ok { σ with bots := σ.bots ++ [validate_resource_limits row] }
  else
    .error "Bot limit exceeded. Maximum 3 bots allowed per user."

/-- An UPDATE on bots rows matching an id; each written row passes through
validate_resource_limits (trigger enforce_resource_limits). -/
def updateBotRow (σ : DbState) (id : String) (f : BotRow → BotRow) : DbState :=
  { σ with
    bots := σ.bots.map (fun b => if b.id == id then validate_resource_limits (f b) else b) }

/-- DELETE of a bot row: the foreign keys of bot_env_vars, bot_logs and
resource_history are ON DELETE CASCADE, so dependent rows go too. -/
def deleteBotCascade (σ : DbState) (id : String) : DbState :=
  { bots := σ.bots.filter (fun b => b.id != id),
    envVars := σ.envVars.filter (fun e => e.botId != id),
    logs := σ.logs.filter (fun e => e.botId != id),
    history := σ.history.filter (fun s => s.botId != id) }

/-- Helper addLog of bot-manager: appends one bot_logs row. -/
def addLog (σ : DbState) (id level message : String) : DbState :=
  { σ with logs := σ.logs ++ [⟨id, level, message⟩] }

/-- Helper recordResources of bot-manager: appends one resource_history row
(recorded_at defaults to now at the store). -/
def recordResources (σ : DbState) (id : String) (cpu memory : ℚ) (now : Int) : DbState :=
  { σ with history := σ.history ++ [⟨id, cpu, memory, now⟩] }

/-- First bots row with a given id (the .single() of a select by id). -/
def findBot (σ : DbState) (id : String) : Option BotRow :=
  σ.bots.find? (fun b => b.id == id)

/-- Helper verifyBotOwnership of bot-manager: the selected row's user_id
must equal the caller's id (a missing row gives false the same way). -/
def verifyBotOwnership (σ : DbState) (uid id : String) : Bool :=
  match findBot σ id with
  | some bot => bot.userId == uid
  | none => false

/-- JS Math.round: round half toward positive infinity. -/
def jsRound (x : ℚ) : Int := ⌊x + 1 / 2⌋

/-- simulateResourceUsage of bot-manager (the same two formulas are inlined
in bot-heartbeat): cpu is Math.round((r1 * 8 + 1) * 10) / 10 and memory is
Math.round((r2 * 35 + 5) * 10) / 10 for Math.random() draws r1, r2. -/
def simulateResourceUsage (r1 r2 : ℚ) : ℚ × ℚ :=
  ((jsRound ((r1 * 8 + 1) * 10) : ℚ) / 10, (jsRound ((r2 * 35 + 5) * 10) : ℚ) / 10)

/-- The authenticated caller: id plus whether email_confirmed_at is set. -/
structure Caller where
  id : String
  emailConfirmed : Bool
deriving DecidableEq, Repr

/-- Action field of the bot-manager request body. -/
inductive BotAction where
  | deploy | start | stop | restart | delete | status
deriving DecidableEq, Repr

structure EnvVarPair where
  key : String
  value : String
deriving DecidableEq, Repr

/-- Request body of bot-manager (interface BotAction of the source). -/
structure BotActionReq where
  action : BotAction
  botId : Option String := none
  name : Option String := none
  platform : Option BotPlatform := none
  runtime : Option BotRuntime := none
  scriptContent : Option String := none
  envVars : List EnvVarPair := []
deriving DecidableEq, Repr

/-- Error responses of the functions, one constructor per distinct response
site; every non-owned or missing bot id yields the one accessDenied value
(the body "Bot not found or access denied", status 403). -/
inductive ErrKind where
  | unauthenticated
  | notVerified
  | accessDenied
  | validationFailed (msg : String)
  | quotaExceeded
  | storageFailed
deriving DecidableEq, Repr

/-- Success and error responses of bot-manager. -/
inductive BotResponse where
  | deployOk (bot : BotRow)
  | startOk (containerId : String) (cpu memory : ℚ)
  | stopOk
  | restartOk (containerId : String) (cpu memory : ℚ)
  | deleteOk
  | statusOk (bot : Option BotRow)
  | err (e : ErrKind)
deriving DecidableEq, Repr

/-- Environment of one bot-manager invocation: the Math.random() draws, the
generated container id and bot id, the clock, and whether the row write
the handler checks for an error succeeds. -/
structure OpEnv where
  r1 : ℚ
  r2 : ℚ
  containerId : String
  newBotId : String
  now : Int
  writeOk : Bool
deriving Repr

/-- The Math.random() draws of an environment lie in [0, 1). -/
def ValidOpEnv (env : OpEnv) : Prop :=
  0 ≤ env.r1 ∧ env.r1 < 1 ∧ 0 ≤ env.r2 ∧ env.r2 < 1

/-- The action dispatch of bot-manager, after authentication and the email
verification gate. -/
def botManagerAction (user : Caller) (req : BotActionReq) (env : OpEnv) (σ : DbState) :
    BotResponse × DbState :=
  match req.action with
  | .deploy =>
    match req.name, req.platform, req.runtime with
    | some name, some platform, some runtime =>
      if name == "" then
        (.err (.validationFailed "Missing required fields: name, platform, runtime"), σ)
      else if 3 ≤ botCountOf σ user.id then
        (.err .quotaExceeded, σ)
      else if !env.writeOk then
        (.err .storageFailed, σ)
      else
        let row : BotRow :=
          { id := env.newBotId, userId := user.id, name := name, platform := platform,
            runtime := runtime, status := .offline, containerId := some env.containerId,
            scriptContent := req.scriptContent, cpuUsage := 0, memoryUsage := 0,
            uptimeSeconds := 0, lastStartedAt := none }
        match insertBotRow σ row with
        | .error _ => (.err .storageFailed, σ)
        | .ok σ1 =>
          let stored := validate_resource_limits row
          let pairs := req.envVars.filter (fun p => p.key != "" && p.value != "")
          let σ2 := { σ1 with
            envVars := σ1.envVars ++ pairs.map (fun p => ⟨stored.id, p.key, p.value⟩) }
          let σ3 := addLog σ2 stored.id "info"
            ("Bot \"" ++ name ++ "\" created with container " ++ env.containerId)
          let σ4 := addLog σ3 stored.id "info"
            ("Runtime: " ++ runtimeText runtime ++ ", Platform: " ++ platformText platform)
          (.deployOk stored, σ4)
    | _, _, _ =>
      (.err (.validationFailed "Missing required fields: name, platform, runtime"), σ)
  | .start =>
    match req.botId with
    | none => (.err (.validationFailed "Missing botId"), σ)
    | some id =>
      if !(verifyBotOwnership σ user.id id) then
        (.err .accessDenied, σ)
      else
        let res := simulateResourceUsage env.r1 env.r2
        if !env.writeOk then
          (.err .storageFailed, σ)
        else
          let σ1 := updateBotRow σ id (fun b =>
            { b with status := .online, containerId := some env.containerId,
                     lastStartedAt := some env.now,
                     cpuUsage := res.1, memoryUsage := res.2 })
          let σ2 := addLog σ1 id "info" "Bot started successfully"
          let σ3 := addLog σ2 id "info" ("Container " ++ env.containerId ++ " is running")
          let σ4 := addLog σ3 id "debug"
            ("Resources allocated: " ++ toString res.1 ++ "% CPU, " ++ toString res.2 ++ "MB RAM")
          let σ5 := recordResources σ4 id res.1 res.2 env.now
          (.startOk env.containerId res.1 res.2, σ5)
  | .stop =>
    match req.botId with
    | none => (.err (.validationFailed "Missing botId"), σ)
    | some id =>
      if !(verifyBotOwnership σ user.id id) then
        (.err .accessDenied, σ)
      else if !env.writeOk then
        (.err .storageFailed, σ)
      else
        let σ1 := updateBotRow σ id (fun b =>
          { b with status := .stopped, cpuUsage := 0, memoryUsage := 0 })
        let σ2 := addLog σ1 id "info" "Bot stopped"
        let σ3 := addLog σ2 id "info" "Container terminated gracefully"
        (.stopOk, σ3)
  | .restart =>
    match req.botId with
    | none => (.err (.validationFailed "Missing botId"), σ)
    | some id =>
      if !(verifyBotOwnership σ user.id id) then
        (.err .accessDenied, σ)
      else
        let σ0 := addLog σ id "info" "Restarting bot..."
        let res := simulateResourceUsage env.r1 env.r2
        if !env.writeOk then
          (.err .storageFailed, σ0)
        else
          let σ1 := updateBotRow σ0 id (fun b =>
            { b with status := .online, containerId := some env.containerId,
                     lastStartedAt := some env.now,
                     cpuUsage := res.1, memoryUsage := res.2 })
          let σ2 := addLog σ1 id "info" "Bot restarted successfully"
          let σ3 := addLog σ2 id "info"
            ("New container " ++ env.containerId ++ " is running")
          let σ4 := recordResources σ3 id res.1 res.2 env.now
          (.restartOk env.containerId res.1 res.2, σ4)
  | .delete =>
    match req.botId with
    | none => (.err (.validationFailed "Missing botId"), σ)
    | some id =>
      if !(verifyBotOwnership σ user.id id) then
        (.err .accessDenied, σ)
      else if !env.writeOk then
        (.err .storageFailed, σ)
      else
        (.deleteOk, deleteBotCascade σ id)
  | .status =>
    match req.botId with
    | none => (.err (.validationFailed "Missing botId"), σ)
    | some id =>
      if !(verifyBotOwnership σ user.id id) then
        (.err .accessDenied, σ)
      else
        match findBot σ id with
        | none => (.statusOk none, σ)
        | some bot =>
          if bot.status == .online then
            let res := simulateResourceUsage env.r1 env.r2
            let σ1 := if env.writeOk then
                updateBotRow σ id (fun b => { b with cpuUsage := res.1, memoryUsage := res.2 })
              else σ
            let σ2 := recordResources σ1 id res.1 res.2 env.now
            (.statusOk (some { bot with cpuUsage := res.1, memoryUsage := res.2 }), σ2)
          else
            (.statusOk (some bot), σ)

/-- The bot-manager serve handler: a missing or invalid credential gives the
401 response, an unverified email gives the 403 "Email not verified"
response before the body is even dispatched, and then the action runs. -/
def botManager (auth : Option Caller) (req : BotActionReq) (env : OpEnv) (σ : DbState) :
    BotResponse × DbState :=
  match auth with
  | none => (.err .unauthenticated, σ)
  | some user =>
    if !user.emailConfirmed then
      (.err .notVerified, σ)
    else
      botManagerAction user req env σ

/-! The bot-heartbeat reconciler. -/

/-- One entry of the updates array the heartbeat response reports. -/
structure HbUpdateEntry where
  botId : String
  botName : String
  cpu : ℚ
  memory : ℚ
  uptime : Int
deriving DecidableEq, Repr

/-- Response body of bot-heartbeat. -/
structure HbResult where
  botsUpdated : Nat
  updates : List HbUpdateEntry
deriving DecidableEq, Repr

/-- Environment of one heartbeat sweep, keyed per bot id: the Math.random()
draws for the usage sample, whether the row update succeeds, which of the
five synthetic log messages gets appended (none when the Math.random() draw
stayed at or below 0.7), and the clock. -/
structure HbEnv where
  r1 : String → ℚ
  r2 : String → ℚ
  updateOk : String → Bool
  logPick : String → Option Nat
  now : Int

/-- The Math.random() draws of a heartbeat environment lie in [0, 1). -/
def ValidHbEnv (env : HbEnv) : Prop :=
  ∀ id, 0 ≤ env.r1 id ∧ env.r1 id < 1 ∧ 0 ≤ env.r2 id ∧ env.r2 id < 1

/-- The fixed pool of synthetic log lines of bot-heartbeat; the last one
interpolates the sampled memory usage. -/
def hbLogMessages (memoryUsage : ℚ) : List (String × String) :=
  [("info", "Processing incoming message..."),
   ("debug", "Heartbeat check passed"),
   ("info", "Webhook delivered successfully"),
   ("info", "User command processed"),
   ("debug", "Memory usage: " ++ toString memoryUsage ++ "MB")]

/-- Cpu sample of the sweep for one bot, Math.round((r * 8 + 1) * 10) / 10. -/
def hbCpu (env : HbEnv) (b : BotRow) : ℚ :=
  (jsRound ((env.r1 b.id * 8 + 1) * 10) : ℚ) / 10

/-- Memory sample of the sweep for one bot, Math.round((r * 35 + 5) * 10) / 10. -/
def hbMem (env : HbEnv) (b : BotRow) : ℚ :=
  (jsRound ((env.r2 b.id * 35 + 5) * 10) : ℚ) / 10

/-- Uptime the sweep computes: now minus last_started_at in whole seconds,
zero when last_started_at is absent. -/
def hbUptime (env : HbEnv) (b : BotRow) : Int :=
  env.now - b.lastStartedAt.getD env.now

/-- The row rewrite the sweep attempts for the fetched bot b, applied to the
current row r of the same id (values keyed by b, clamp trigger applied). -/
def hbRowUpd (env : HbEnv) (b : BotRow) (r : BotRow) : BotRow :=
  validate_resource_limits
    { r with cpuUsage := hbCpu env b, memoryUsage := hbMem env b,
             uptimeSeconds := hbUptime env b }

/-- Entry pushed onto the updates array for a successfully updated bot. -/
def hbEntryOf (env : HbEnv) (b : BotRow) : HbUpdateEntry :=
  ⟨b.id, b.name, hbCpu env b, hbMem env b, hbUptime env b⟩

/-- The resource_history row inserted for a successfully updated bot. -/
def hbSampleOf (env : HbEnv) (b : BotRow) : SampleRow :=
  ⟨b.id, hbCpu env b, hbMem env b, env.now⟩

/-- The synthetic bot_logs row of the occasional draw for one bot. -/
def hbLogOf (env : HbEnv) (b : BotRow) (i : Nat) : LogRow :=
  let entry := (hbLogMessages (hbMem env b)).getD i ("info", "")
  ⟨b.id, entry.1, entry.2⟩

/-- Body of the per-bot loop of bot-heartbeat: sample usage, compute uptime
from last_started_at (now when absent), attempt the row update; only on
success append the resource_history row and push the update entry; then, on
the occasional draw, append one synthetic log line (this happens whether or
not the update succeeded). -/
def hbStep (env : HbEnv) (acc : List HbUpdateEntry × DbState) (b : BotRow) :
    List HbUpdateEntry × DbState :=
  let step1 : List HbUpdateEntry × DbState :=
    if env.updateOk b.id then
      (acc.1 ++ [hbEntryOf env b],
       recordResources
         (updateBotRow acc.2 b.id (fun r =>
           { r with cpuUsage := hbCpu env b, memoryUsage := hbMem env b,
                    uptimeSeconds := hbUptime env b }))
         b.id (hbCpu env b) (hbMem env b) env.now)
    else acc
  match env.logPick b.id with
  | some i => (step1.1, addLog step1.2 b.id (hbLogOf env b i).level (hbLogOf env b i).message)
  | none => step1

/-- The bot-heartbeat serve handler: it never reads the Authorization
header, fetches every bots row in online status through the service-role
client (no per-user filter), folds the per-bot loop over them, and reports
botsUpdated as the length of the updates array. -/
def botHeartbeat (_authHeader : Option String) (env : HbEnv) (σ : DbState) :
    HbResult × DbState :=
  let running := σ.bots.filter (fun b => b.status == .online)
  let out := running.foldl (hbStep env) ([], σ)
  ({ botsUpdated := out.1.length, updates := out.1 }, out.2)

/-- Composite effect of the sweep's row updates on one stored row: each
fetched bot whose update succeeds rewrites the rows of its id in turn. -/
def hbComposite (env : HbEnv) (l : List BotRow) (r : BotRow) : BotRow :=
  l.foldl (fun r b => if env.updateOk b.id && r.id == b.id then hbRowUpd env b r else r) r

/-- The synthetic log rows one sweep appends, in bot order. -/
def hbLogsOf (env : HbEnv) (l : List BotRow) : List LogRow :=
  l.filterMap (fun b => (env.logPick b.id).map (fun i => hbLogOf env b i))

/-! The resource-metrics aggregator. -/

/-- UTC hour truncation: toISOString().slice(0, 13) keys a sample by the
hour containing its recorded timestamp (epoch seconds, floor division). -/
def hourOf (t : Int) : Int := t / 3600

/-- Two-digit rendering of an hour-of-day or minute component. -/
def pad2 (n : Int) : String :=
  if n < 10 then "0" ++ toString n else toString n

/-- Label of an hour bucket: the bucket's wall-clock time rendered HH:MM in
24-hour notation (toLocaleTimeString with hour12 false on the hour
boundary, whose minutes are always 00). -/
def hourLabel (h : Int) : String := pad2 (h % 24) ++ ":00"

/-- One accumulator cell of the hourlyMetrics record: the pushed cpu and
memory arrays plus the count field. -/
structure HourBucket where
  cpu : List ℚ
  memory : List ℚ
  count : Nat
deriving DecidableEq, Repr

def emptyBucket : HourBucket := ⟨[], [], 0⟩

def bucketAdd (b : HourBucket) (s : SampleRow) : HourBucket :=
  { cpu := b.cpu ++ [s.cpuUsage], memory := b.memory ++ [s.memoryUsage],
    count := b.count + 1 }

/-- JS object update: a present key keeps its place and grows its bucket, a
new key is appended at the end (string-keyed property insertion order). -/
def upsertSample : List (Int × HourBucket) → Int → SampleRow → List (Int × HourBucket)
  | [], h, s => [(h, bucketAdd emptyBucket s)]
  | (k, b) :: rest, h, s =>
    if k == h then (k, bucketAdd b s) :: rest
    else (k, b) :: upsertSample rest h s

/-- The hourlyMetrics accumulation loop over the fetched history. -/
def hourlyMetrics (history : List SampleRow) : List (Int × HourBucket) :=
  history.foldl (fun acc s => upsertSample acc (hourOf s.recordedAt) s) []

/-- One element of the chartData array. -/
structure ChartPoint where
  time : String
  cpu : ℚ
  memory : ℚ
deriving DecidableEq, Repr

/-- The map over Object.entries(hourlyMetrics): label the hour and round the
mean of each array to one decimal, Math.round(sum / count * 10) / 10. -/
def chartPointOf (h : Int) (b : HourBucket) : ChartPoint :=
  { time := hourLabel h,
    cpu := (jsRound (b.cpu.sum / (b.count : ℚ) * 10) : ℚ) / 10,
    memory := (jsRound (b.memory.sum / (b.count : ℚ) * 10) : ℚ) / 10 }

def chartDataOf (history : List SampleRow) : List ChartPoint :=
  (hourlyMetrics history).map (fun p => chartPointOf p.1 p.2)

/-- Sort key of the history query: recorded_at ascending. -/
def byRecordedAt (a b : SampleRow) : Prop := a.recordedAt ≤ b.recordedAt

instance : DecidableRel byRecordedAt := fun a b => Int.decLe a.recordedAt b.recordedAt

instance : IsTotal SampleRow byRecordedAt := ⟨fun a b => Int.le_total a.recordedAt b.recordedAt⟩

instance : IsTrans SampleRow byRecordedAt := ⟨fun _ _ _ h1 h2 => le_trans h1 h2⟩

/-- The resource_history query of resource-metrics: rows of the selected
bots recorded at or after the cutoff, ordered by recorded_at ascending. -/
def fetchHistory (σ : DbState) (botIds : List String) (cutoff : Int) : List SampleRow :=
  List.insertionSort byRecordedAt
    (σ.history.filter (fun s => botIds.contains s.botId && decide (cutoff ≤ s.recordedAt)))

/-- The chartData computation of resource-metrics for a set of bot ids: the
hours parameter defaults to 24 and the cutoff is now minus that window. -/
def resourceMetricsChart (σ : DbState) (botIds : List String) (now : Int)
    (hoursParam : Option Int) : List ChartPoint :=
  chartDataOf (fetchHistory σ botIds (now - hoursParam.getD 24 * 3600))

/-- Rounding to one decimal place (Math.round(x * 10) / 10). -/
def round1 (x : ℚ) : ℚ := (jsRound (x * 10) : ℚ) / 10

/-- Modelled from the spec's wording of the aggregation, for comparison
with the source-derived chartDataOf: the chart point of one non-empty hour
bucket is the hour's HH:MM label with the arithmetic mean of cpu and of
memory over the samples of that hour, each rounded to one decimal place. -/
def specHourPoint (history : List SampleRow) (h : Int) : ChartPoint :=
  let bucket := history.filter (fun s => hourOf s.recordedAt == h)
  { time := hourLabel h,
    cpu := round1 ((bucket.map (fun s => s.cpuUsage)).sum / (bucket.length : ℚ)),
    memory := round1 ((bucket.map (fun s => s.memoryUsage)).sum / (bucket.length : ℚ)) }

/-- Modelled from the spec's wording of the aggregation: group the fetched
samples by UTC-truncated hour and emit one point per non-empty hour bucket
in chronological order. -/
def chartSpecData (history : List SampleRow) : List ChartPoint :=
  ((history.map (fun s => hourOf s.recordedAt)).toFinset.sort (· ≤ ·)).map
    (specHourPoint history)

/-- Lookup of an hour key in the accumulator (JS property access). -/
def bLookup : List (Int × HourBucket) → Int → Option HourBucket
  | [], _ => none
  | (k, b) :: rest, h => if k == h then some b else bLookup rest h

/-- Key list of the accumulator (JS Object.keys order). -/
def bKeys (acc : List (Int × HourBucket)) : List Int := acc.map Prod.fst

/-- Stats block of the resource-metrics response, computed from the current
bots rows. -/
structure MetricsStats where
  totalBots : Nat
  runningBots : Nat
  totalCpu : ℚ
  totalMemory : ℚ
  maxBots : Nat
  maxCpuPerBot : Nat
  maxMemoryPerBot : Nat
deriving DecidableEq, Repr

/-- Responses of the resource-metrics handler. The zero-bots early return
is its own shape: the body is exactly success true plus an empty metrics
array, with no chartData, stats or bots field. -/
inductive MetricsResponse where
  | emptyMetrics
  | ok (chartData : List ChartPoint) (stats : MetricsStats) (bots : List BotRow)
  | err (e : ErrKind)
deriving DecidableEq, Repr

/-- The resource-metrics serve handler: authenticate, load the caller's
bots, return the early {success, metrics: []} body when there are none,
resolve the optional botId filter (rejecting an id the caller does not
own), aggregate the chart and compute the stats from the current rows. -/
def resourceMetrics (auth : Option Caller) (botIdParam : Option String)
    (hoursParam : Option Int) (now : Int) (σ : DbState) : MetricsResponse :=
  match auth with
  | none => .err .unauthenticated
  | some user =>
    let userBots := σ.bots.filter (fun b => b.userId == user.id)
    if userBots.isEmpty then
      .emptyMetrics
    else
      let botIds := match botIdParam with
        | some id => [id]
        | none => userBots.map (fun b => b.id)
      let badFilter := match botIdParam with
        | some id => !(userBots.any (fun b => b.id == id))
        | none => false
      if badFilter then
        .err .accessDenied
      else
        let chartData := resourceMetricsChart σ botIds now hoursParam
        let currentBots := σ.bots.filter (fun b => botIds.contains b.id && b.userId == user.id)
        let stats : MetricsStats :=
          { totalBots := currentBots.length,
            runningBots := (currentBots.filter (fun b => b.status == .online)).length,
            totalCpu := (currentBots.map (fun b => b.cpuUsage)).sum,
            totalMemory := (currentBots.map (fun b => b.memoryUsage)).sum,
            maxBots := 3, maxCpuPerBot := 10, maxMemoryPerBot := 50 }
        .ok chartData stats currentBots

/-! A combined step covering every state-mutating entry point, for the
write-invariant theorem. -/

/-- One invocation of either server function. -/
inductive SysOp where
  | manager (auth : Option Caller) (req : BotActionReq) (env : OpEnv)
  | heartbeat (authHeader : Option String) (env : HbEnv)

/-- The store after running one invocation. -/
def runSysOp : SysOp → DbState → DbState
  | .manager auth req env, σ => (botManager auth req env σ).2
  | .heartbeat a env, σ => (botHeartbeat a env σ).2

/-- The Math.random() draws of an invocation lie in [0, 1). -/
def ValidSysOp : SysOp → Prop
  | .manager _ _ env => ValidOpEnv env
  | .heartbeat _ env => ValidHbEnv env

/-- Row invariant of the data model: cpu in [0, 10], memory in [0, 50]. -/
def RowInv (b : BotRow) : Prop :=
  0 ≤ b.cpuUsage ∧ b.cpuUsage ≤ 10 ∧ 0 ≤ b.memoryUsage ∧ b.memoryUsage ≤ 50

/-- Store invariant: every bots row satisfies the resource bounds. -/
def StoreInv (σ : DbState) : Prop := ∀ b ∈ σ.bots, RowInv b

/-! Concrete fixtures for counterexamples and witnesses. -/

/-- A deployed bot of user u1, currently online. -/
def sampleBot : BotRow :=
  { id := "b1", userId := "u1", name := "Echo", platform := .telegram,
    runtime := .python, status := .online, containerId := some "nexus-0",
    scriptContent := none, cpuUsage := 2, memoryUsage := 10,
    uptimeSeconds := 0, lastStartedAt := some 0 }

/-- A store holding just that bot. -/
def sampleState : DbState := ⟨[sampleBot], [], [], []⟩

/-- A store holding no bots at all. -/
def emptyState : DbState := ⟨[], [], [], []⟩

/-- An environment with zero random draws and a successful write. -/
def sampleEnv : OpEnv :=
  { r1 := 0, r2 := 0, containerId := "nexus-1", newBotId := "b2", now := 1000, writeOk := true }

/-- A store in which user u1 already owns three bots. -/
def quotaState : DbState :=
  ⟨[sampleBot, { sampleBot with id := "b2" }, { sampleBot with id := "b3" }], [], [], []⟩

/-- A store with two online bots of two different users. -/
def twoBotState : DbState :=
  ⟨[sampleBot, { sampleBot with id := "b2", userId := "u2" }], [], [], []⟩

/-- A heartbeat environment in which exactly the update of bot b1 fails,
with no synthetic log draws. -/
def sampleHbEnv : HbEnv :=
  { r1 := fun _ => 0, r2 := fun _ => 0, updateOk := fun id => id != "b1",
    logPick := fun _ => none, now := 1000 }

/-! Theorems. -/

/-- Helper: with a verified caller, every botId-taking action answers the
single accessDenied response and leaves the store untouched whenever the
ownership probe fails, whether the row is missing or owned by another. -/
theorem accessDenied_of_not_owner (u : Caller) (act : BotAction) (id : String) (env : OpEnv)
    (σ : DbState) (hv : u.emailConfirmed = true) (hact : act ≠ BotAction.deploy)
    (hown : verifyBotOwnership σ u.id id = false) :
    botManager (some u) { action := act, botId := some id } env σ = (.err .accessDenied, σ) := by
  cases act <;> simp_all [botManager, botManagerAction]

/-- C3 counterexample: in the source the email verification gate runs
before the action dispatch, so a status request by an authenticated caller
on a bot they own fails with the NotVerified error when their email is
unverified, instead of succeeding as the claim states. -/
theorem status_notVerified_counterexample :
    verifyBotOwnership sampleState "u1" "b1" = true ∧
    botManager (some ⟨"u1", false⟩) { action := .status, botId := some "b1" } sampleEnv sampleState
      = (.err .notVerified, sampleState) :=
  ⟨rfl, rfl⟩

/-- C3 (amended): the NotVerified check is applied before any other check
for every operation, including the read-only status operation: whenever the
authenticated caller's email is unverified, the request fails with
NotVerified regardless of its action, body or the store, and the store is
untouched. -/
theorem notVerified_gate_every_action (u : Caller) (req : BotActionReq) (env : OpEnv)
    (σ : DbState) (h : u.emailConfirmed = false) :
    botManager (some u) req env σ = (.err .notVerified, σ) := by
  simp [botManager, h]

/-- Witness for notVerified_gate_every_action at a concrete input. -/
theorem notVerified_gate_every_action_witness :
    (⟨"u1", false⟩ : Caller).emailConfirmed = false ∧
    botManager (some ⟨"u1", false⟩) { action := .deploy } sampleEnv sampleState
      = (.err .notVerified, sampleState) :=
  ⟨rfl, notVerified_gate_every_action ⟨"u1", false⟩ { action := .deploy } sampleEnv sampleState rfl⟩

/-- C8: for every botId-taking operation, a verified caller who does not
own the addressed id gets the one accessDenied response with the store
untouched, and two runs over stores where the id is owned by someone else
or absent altogether produce the same response: nothing reveals whether
the id exists. -/
theorem nonowner_access_denied_uniform (u : Caller) (act : BotAction) (id : String)
    (env env2 : OpEnv) (σ σ2 : DbState) (hv : u.emailConfirmed = true)
    (hact : act ≠ BotAction.deploy)
    (hown : verifyBotOwnership σ u.id id = false)
    (hown2 : verifyBotOwnership σ2 u.id id = false) :
    botManager (some u) { action := act, botId := some id } env σ = (.err .accessDenied, σ) ∧
    (botManager (some u) { action := act, botId := some id } env σ).1 =
      (botManager (some u) { action := act, botId := some id } env2 σ2).1 := by
  refine ⟨accessDenied_of_not_owner u act id env σ hv hact hown, ?_⟩
  rw [accessDenied_of_not_owner u act id env σ hv hact hown,
    accessDenied_of_not_owner u act id env2 σ2 hv hact hown2]

/-- Witness for nonowner_access_denied_uniform: caller u2 addresses the id
b1, once in a store where b1 belongs to u1 and once in a store where no
such row exists. -/
theorem nonowner_access_denied_uniform_witness :
    (⟨"u2", true⟩ : Caller).emailConfirmed = true ∧
    verifyBotOwnership sampleState "u2" "b1" = false ∧
    verifyBotOwnership emptyState "u2" "b1" = false ∧
    botManager (some ⟨"u2", true⟩) { action := .start, botId := some "b1" } sampleEnv sampleState
      = (.err .accessDenied, sampleState) :=
  ⟨rfl, rfl, rfl,
    (nonowner_access_denied_uniform ⟨"u2", true⟩ .start "b1" sampleEnv sampleEnv
      sampleState emptyState rfl (by decide) rfl rfl).1⟩

/-- C4: the zero-bots early return of resource-metrics answers success with
a bare empty metrics array: it is never an error, but it carries neither a
chartData field nor a stats block, contradicting the promised
chartData-equals-empty-and-zeroed-stats shape. -/
theorem metrics_zero_bots_empty_body (u : Caller) (botIdParam : Option String)
    (hoursParam : Option Int) (now : Int) (σ : DbState)
    (h : σ.bots.filter (fun b => b.userId == u.id) = []) :
    resourceMetrics (some u) botIdParam hoursParam now σ = .emptyMetrics ∧
    (∀ e, resourceMetrics (some u) botIdParam hoursParam now σ ≠ .err e) ∧
    (∀ cd stats bots, resourceMetrics (some u) botIdParam hoursParam now σ ≠ .ok cd stats bots) := by
  have hempty : resourceMetrics (some u) botIdParam hoursParam now σ = .emptyMetrics := by
    simp [resourceMetrics, h]
  exact ⟨hempty, fun e => by simp [hempty], fun cd stats bots => by simp [hempty]⟩

/-- Witness for metrics_zero_bots_empty_body: caller u2 owns nothing in the
sample store. -/
theorem metrics_zero_bots_empty_body_witness :
    sampleState.bots.filter (fun b => b.userId == "u2") = [] ∧
    resourceMetrics (some ⟨"u2", true⟩) none none 1000 sampleState = .emptyMetrics :=
  ⟨rfl, (metrics_zero_bots_empty_body ⟨"u2", true⟩ none none 1000 sampleState rfl).1⟩

/-- The clamp trigger does not touch the id. -/
theorem validate_id (b : BotRow) : (validate_resource_limits b).id = b.id := rfl

/-- Looking a row up after an UPDATE by id: the found row is the old one,
rewritten when its id matches and clamped by the trigger. -/
theorem findBot_updateBotRow (σ : DbState) (id id2 : String) (f : BotRow → BotRow)
    (hf : ∀ b, (f b).id = b.id) :
    findBot (updateBotRow σ id f) id2 =
      (findBot σ id2).map
        (fun b => if b.id == id then validate_resource_limits (f b) else b) := by
  unfold findBot updateBotRow
  rw [List.find?_map]
  have hpred : ((fun b : BotRow => b.id == id2) ∘
        fun b => if (b.id == id) = true then validate_resource_limits (f b) else b)
      = (fun b : BotRow => b.id == id2) := by
    funext b
    by_cases h : (b.id == id) = true <;> simp [h, Function.comp, validate_id, hf b]
  rw [hpred]

/-- Looking the updated row itself up after an UPDATE by id. -/
theorem findBot_updateBotRow_self (σ : DbState) (id : String) (f : BotRow → BotRow)
    (hf : ∀ b, (f b).id = b.id) :
    findBot (updateBotRow σ id f) id =
      (findBot σ id).map (fun b => validate_resource_limits (f b)) := by
  rw [findBot_updateBotRow σ id id f hf]
  cases hfind : findBot σ id with
  | none => rfl
  | some b =>
    have hb : (b.id == id) = true :=
      List.find?_some (p := fun r : BotRow => r.id == id)
        (show List.find? (fun r : BotRow => r.id == id) σ.bots = some b from hfind)
    have hid : b.id = id := by simpa using hb
    simp [hid]

/-- A successful ownership probe yields the row: it has the probed id and
the caller's user id. -/
theorem exists_of_verifyOwn (σ : DbState) (uid id : String)
    (h : verifyBotOwnership σ uid id = true) :
    ∃ b, findBot σ id = some b ∧ b.id = id ∧ b.userId = uid := by
  unfold verifyBotOwnership at h
  cases hfind : findBot σ id with
  | none => rw [hfind] at h; exact absurd h (by simp)
  | some b =>
    rw [hfind] at h
    have hb : (b.id == id) = true :=
      List.find?_some (p := fun r : BotRow => r.id == id)
        (show List.find? (fun r : BotRow => r.id == id) σ.bots = some b from hfind)
    exact ⟨b, rfl, by simpa using hb, by simpa using h⟩

/-- Appending a log row does not change the bots table. -/
theorem findBot_addLog (σ : DbState) (i l m id2 : String) :
    findBot (addLog σ i l m) id2 = findBot σ id2 := rfl

/-- Appending a history row does not change the bots table. -/
theorem findBot_recordResources (σ : DbState) (i : String) (c m : ℚ) (t : Int) (id2 : String) :
    findBot (recordResources σ i c m t) id2 = findBot σ id2 := rfl

/-- C2: a deploy by a verified caller already owning 3 bots fails with
QuotaExceeded and leaves the store untouched; a successful deploy implies
the caller's bot count was strictly below 3 (the controller's advisory
check); and the storage-layer insert trigger independently rejects any
bots insert for a user already at the quota. -/
theorem deploy_quota_enforced (u : Caller) (nm : String) (p : BotPlatform) (rt : BotRuntime)
    (sc : Option String) (evs : List EnvVarPair) (env : OpEnv) (σ : DbState)
    (hv : u.emailConfirmed = true) (hn : nm ≠ "") :
    (3 ≤ botCountOf σ u.id →
      botManager (some u)
        { action := .deploy, name := some nm, platform := some p, runtime := some rt,
          scriptContent := sc, envVars := evs } env σ = (.err .quotaExceeded, σ)) ∧
    (∀ bot σ2,
      botManager (some u)
        { action := .deploy, name := some nm, platform := some p, runtime := some rt,
          scriptContent := sc, envVars := evs } env σ = (.deployOk bot, σ2) →
      botCountOf σ u.id < 3) ∧
    (∀ row : BotRow, 3 ≤ botCountOf σ row.userId →
      insertBotRow σ row = .error "Bot limit exceeded. Maximum 3 bots allowed per user.") := by
  refine ⟨?_, ?_, ?_⟩
  · intro hq
    simp [botManager, botManagerAction, hv, hn, hq]
  · intro bot σ2 hdep
    by_contra hge
    have hq : 3 ≤ botCountOf σ u.id := Nat.le_of_not_lt hge
    rw [show botManager (some u)
        { action := .deploy, name := some nm, platform := some p, runtime := some rt,
          scriptContent := sc, envVars := evs } env σ = (.err .quotaExceeded, σ) by
      simp [botManager, botManagerAction, hv, hn, hq]] at hdep
    simp at hdep
  · intro row hrow
    simp [insertBotRow, check_bot_limit, Nat.not_lt.mpr hrow]

/-- Witness for deploy_quota_enforced: a verified caller u1 at the quota in
a store of three bots. -/
theorem deploy_quota_enforced_witness :
    (⟨"u1", true⟩ : Caller).emailConfirmed = true ∧ "Echo" ≠ "" ∧
    (3 ≤ botCountOf quotaState "u1" →
      botManager (some ⟨"u1", true⟩)
        { action := .deploy, name := some "Echo", platform := some .telegram,
          runtime := some .python, scriptContent := none, envVars := [] } sampleEnv quotaState
        = (.err .quotaExceeded, quotaState)) :=
  ⟨rfl, by decide,
    (deploy_quota_enforced ⟨"u1", true⟩ "Echo" .telegram .python none [] sampleEnv quotaState
      rfl (by decide)).1⟩

/-- C6: a successful stop answers stopOk, leaves the bot's row stopped with
cpu and memory zeroed, and a status call right after on the same bot
returns that zeroed row as its snapshot while leaving the whole store
unchanged: no resample, no history row, no log row. -/
theorem stop_then_status_zeroed (u : Caller) (id : String) (env1 env2 : OpEnv) (σ : DbState)
    (hv : u.emailConfirmed = true) (hw : env1.writeOk = true)
    (hown : verifyBotOwnership σ u.id id = true) :
    ∃ b : BotRow,
      (botManager (some u) { action := .stop, botId := some id } env1 σ).1 = .stopOk ∧
      findBot (botManager (some u) { action := .stop, botId := some id } env1 σ).2 id = some b ∧
      b.status = .stopped ∧ b.cpuUsage = 0 ∧ b.memoryUsage = 0 ∧
      botManager (some u) { action := .status, botId := some id } env2
          (botManager (some u) { action := .stop, botId := some id } env1 σ).2
        = (.statusOk (some b),
           (botManager (some u) { action := .stop, botId := some id } env1 σ).2) := by
  obtain ⟨b0, hfind, hbid, hbuser⟩ := exists_of_verifyOwn σ u.id id hown
  have hrun : botManager (some u) { action := .stop, botId := some id } env1 σ =
      (.stopOk,
        addLog (addLog (updateBotRow σ id (fun b =>
            { b with status := .stopped, cpuUsage := 0, memoryUsage := 0 }))
          id "info" "Bot stopped") id "info" "Container terminated gracefully") := by
    simp [botManager, botManagerAction, hv, hown, hw]
  have hclamp : validate_resource_limits
      { b0 with status := .stopped, cpuUsage := 0, memoryUsage := 0 }
      = { b0 with status := .stopped, cpuUsage := 0, memoryUsage := 0 } := by
    simp [validate_resource_limits]
  have hfind2 : findBot (addLog (addLog (updateBotRow σ id (fun b =>
        { b with status := .stopped, cpuUsage := 0, memoryUsage := 0 }))
        id "info" "Bot stopped") id "info" "Container terminated gracefully") id
      = some { b0 with status := .stopped, cpuUsage := 0, memoryUsage := 0 } := by
    rw [findBot_addLog, findBot_addLog,
      findBot_updateBotRow_self σ id
        (fun b => { b with status := .stopped, cpuUsage := 0, memoryUsage := 0 })
        (fun b => rfl), hfind]
    simp [hclamp]
  have hstatus : botManager (some u) { action := .status, botId := some id } env2
        (addLog (addLog (updateBotRow σ id (fun b =>
            { b with status := .stopped, cpuUsage := 0, memoryUsage := 0 }))
          id "info" "Bot stopped") id "info" "Container terminated gracefully")
      = (.statusOk (some { b0 with status := .stopped, cpuUsage := 0, memoryUsage := 0 }),
         addLog (addLog (updateBotRow σ id (fun b =>
             { b with status := .stopped, cpuUsage := 0, memoryUsage := 0 }))
           id "info" "Bot stopped") id "info" "Container terminated gracefully") := by
    simp [botManager, botManagerAction, hv, verifyBotOwnership, hfind2, hbuser]
  refine ⟨{ b0 with status := .stopped, cpuUsage := 0, memoryUsage := 0 },
    by rw [hrun], ?_, rfl, rfl, rfl, ?_⟩
  · rw [hrun]
    exact hfind2
  · rw [hrun]
    exact hstatus

/-- Witness for stop_then_status_zeroed on the sample store. -/
theorem stop_then_status_zeroed_witness :
    (⟨"u1", true⟩ : Caller).emailConfirmed = true ∧ sampleEnv.writeOk = true ∧
    verifyBotOwnership sampleState "u1" "b1" = true ∧
    ∃ b : BotRow,
      (botManager (some ⟨"u1", true⟩) { action := .stop, botId := some "b1" }
        sampleEnv sampleState).1 = .stopOk ∧
      findBot (botManager (some ⟨"u1", true⟩) { action := .stop, botId := some "b1" }
        sampleEnv sampleState).2 "b1" = some b ∧
      b.status = .stopped ∧ b.cpuUsage = 0 ∧ b.memoryUsage = 0 ∧
      botManager (some ⟨"u1", true⟩) { action := .status, botId := some "b1" } sampleEnv
          (botManager (some ⟨"u1", true⟩) { action := .stop, botId := some "b1" }
            sampleEnv sampleState).2
        = (.statusOk (some b),
           (botManager (some ⟨"u1", true⟩) { action := .stop, botId := some "b1" }
             sampleEnv sampleState).2) :=
  ⟨rfl, rfl, rfl,
    stop_then_status_zeroed ⟨"u1", true⟩ "b1" sampleEnv sampleEnv sampleState rfl rfl rfl⟩

/-- C5 counterexample: a restart of an owned bot appends exactly three log
rows, all of level info — not the four entries (with one debug row) the
claim describes. -/
theorem restart_logs_counterexample :
    (botManager (some ⟨"u1", true⟩) { action := .restart, botId := some "b1" }
      sampleEnv sampleState).2.logs =
      [⟨"b1", "info", "Restarting bot..."⟩, ⟨"b1", "info", "Bot restarted successfully"⟩,
       ⟨"b1", "info", "New container nexus-1 is running"⟩] ∧
    ((botManager (some ⟨"u1", true⟩) { action := .restart, botId := some "b1" }
      sampleEnv sampleState).2.logs.filter (fun e => e.level == "debug")) = [] :=
  ⟨rfl, rfl⟩

/-- C5 (amended): a restart of an owned bot, in any state, appends the
restarting info log, rewrites the row to online with a freshly generated
execution-unit id, the new last-started timestamp and freshly sampled
usage (clamped by the trigger), appends two further info log rows — not
start's three entries, and no debug row — and appends exactly one resource
sample. -/
theorem restart_behavior (u : Caller) (id : String) (env : OpEnv) (σ : DbState)
    (hv : u.emailConfirmed = true) (hw : env.writeOk = true)
    (hown : verifyBotOwnership σ u.id id = true) :
    (botManager (some u) { action := .restart, botId := some id } env σ).1 =
      .restartOk env.containerId (simulateResourceUsage env.r1 env.r2).1
        (simulateResourceUsage env.r1 env.r2).2 ∧
    (botManager (some u) { action := .restart, botId := some id } env σ).2.logs =
      σ.logs ++ [⟨id, "info", "Restarting bot..."⟩,
        ⟨id, "info", "Bot restarted successfully"⟩,
        ⟨id, "info", "New container " ++ env.containerId ++ " is running"⟩] ∧
    (botManager (some u) { action := .restart, botId := some id } env σ).2.history =
      σ.history ++ [⟨id, (simulateResourceUsage env.r1 env.r2).1,
        (simulateResourceUsage env.r1 env.r2).2, env.now⟩] ∧
    findBot (botManager (some u) { action := .restart, botId := some id } env σ).2 id =
      (findBot σ id).map (fun b => validate_resource_limits
        { b with status := .online, containerId := some env.containerId,
                 lastStartedAt := some env.now,
                 cpuUsage := (simulateResourceUsage env.r1 env.r2).1,
                 memoryUsage := (simulateResourceUsage env.r1 env.r2).2 }) := by
  have hrun : botManager (some u) { action := .restart, botId := some id } env σ =
      (.restartOk env.containerId (simulateResourceUsage env.r1 env.r2).1
          (simulateResourceUsage env.r1 env.r2).2,
        recordResources
          (addLog (addLog (updateBotRow (addLog σ id "info" "Restarting bot...") id (fun b =>
              { b with status := .online, containerId := some env.containerId,
                       lastStartedAt := some env.now,
                       cpuUsage := (simulateResourceUsage env.r1 env.r2).1,
                       memoryUsage := (simulateResourceUsage env.r1 env.r2).2 }))
            id "info" "Bot restarted successfully")
            id "info" ("New container " ++ env.containerId ++ " is running"))
          id (simulateResourceUsage env.r1 env.r2).1
          (simulateResourceUsage env.r1 env.r2).2 env.now) := by
    simp [botManager, botManagerAction, hv, hown, hw]
  refine ⟨by rw [hrun], ?_, ?_, ?_⟩
  · rw [hrun]
    simp [recordResources, addLog, updateBotRow]
  · rw [hrun]
    simp [recordResources, addLog, updateBotRow]
  · rw [hrun, findBot_recordResources, findBot_addLog, findBot_addLog,
      findBot_updateBotRow_self (addLog σ id "info" "Restarting bot...") id
        (fun b =>
          { b with
            status := .online, containerId := some env.containerId,
            lastStartedAt := some env.now,
            cpuUsage := (simulateResourceUsage env.r1 env.r2).1,
            memoryUsage := (simulateResourceUsage env.r1 env.r2).2 })
        (fun b => rfl), findBot_addLog]

/-- The sweep's row rewrite preserves the id. -/
theorem hbRowUpd_id (env : HbEnv) (b r : BotRow) : (hbRowUpd env b r).id = r.id := rfl

/-- The composite sweep effect preserves the id of a row. -/
theorem hbComposite_id (env : HbEnv) (l : List BotRow) (r : BotRow) :
    (hbComposite env l r).id = r.id := by
  induction l generalizing r with
  | nil => rfl
  | cons b t ih =>
    show (hbComposite env t (if env.updateOk b.id && r.id == b.id then hbRowUpd env b r else r)).id
        = r.id
    by_cases h : (env.updateOk b.id && r.id == b.id) = true
    · rw [if_pos h, ih (hbRowUpd env b r), hbRowUpd_id]
    · rw [if_neg h, ih r]

/-- Closed form of the per-bot loop of the sweep. -/
theorem hbFold_spec (env : HbEnv) (l : List BotRow) :
    ∀ (ups : List HbUpdateEntry) (σc : DbState),
    l.foldl (hbStep env) (ups, σc) =
      (ups ++ (l.filter (fun b => env.updateOk b.id)).map (hbEntryOf env),
       { bots := σc.bots.map (hbComposite env l),
         envVars := σc.envVars,
         logs := σc.logs ++ hbLogsOf env l,
         history := σc.history ++ (l.filter (fun b => env.updateOk b.id)).map (hbSampleOf env) }) := by
  induction l with
  | nil =>
    intro ups σc
    rw [List.foldl_nil, show hbComposite env [] = fun r => r from rfl, List.map_id']
    simp [hbLogsOf]
  | cons b t ih =>
    intro ups σc
    rw [List.foldl_cons]
    cases hOk : env.updateOk b.id <;> cases hLog : env.logPick b.id <;>
      simp [hbStep, hOk, hLog, ih, hbComposite, hbLogsOf, hbLogOf, hbSampleOf, hbEntryOf,
        addLog, recordResources, updateBotRow, hbRowUpd, List.map_map, List.filter_cons,
        Function.comp]

/-- The composite sweep effect skips a row whose id matches no fetched bot. -/
theorem hbComposite_skip (env : HbEnv) (l : List BotRow) (r : BotRow)
    (h : ∀ b ∈ l, b.id ≠ r.id) : hbComposite env l r = r := by
  induction l with
  | nil => rfl
  | cons b t ih =>
    show hbComposite env t (if env.updateOk b.id && r.id == b.id then hbRowUpd env b r else r) = r
    have hne : (r.id == b.id) = false := by
      simpa using fun hc => h b (List.mem_cons_self b t) hc.symm
    rw [hne]
    simp only [Bool.and_false, if_neg Bool.false_ne_true]
    exact ih (fun c hc => h c (List.mem_cons_of_mem b hc))

/-- On a fetched list with distinct ids, the composite sweep effect sends a
successfully updated fetched bot to its own rewrite. -/
theorem hbComposite_unique (env : HbEnv) (l : List BotRow) (b : BotRow)
    (hmem : b ∈ l) (hnd : (l.map (fun x => x.id)).Nodup) (hok : env.updateOk b.id = true) :
    hbComposite env l b = hbRowUpd env b b := by
  induction l with
  | nil => cases hmem
  | cons c t ih =>
    have hnd' : (t.map (fun x => x.id)).Nodup := (List.nodup_cons.mp hnd).2
    have hhead : c.id ∉ t.map (fun x => x.id) := (List.nodup_cons.mp hnd).1
    rcases List.mem_cons.mp hmem with rfl | hmem'
    · have hskip : ∀ x ∈ t, x.id ≠ (hbRowUpd env b b).id := by
        intro x hx
        rw [hbRowUpd_id]
        exact fun hxc => hhead (hxc ▸ List.mem_map_of_mem (fun y => y.id) hx)
      have hrest := hbComposite_skip env t (hbRowUpd env b b) hskip
      show hbComposite env t
          (if env.updateOk b.id && b.id == b.id then hbRowUpd env b b else b) = hbRowUpd env b b
      simpa [hok] using hrest
    · have hcb : (b.id == c.id) = false := by
        simp only [beq_eq_false_iff_ne]
        exact fun hbc => hhead (hbc ▸ List.mem_map_of_mem (fun y => y.id) hmem')
      have hrest := ih hmem' hnd'
      show hbComposite env t
          (if env.updateOk c.id && b.id == c.id then hbRowUpd env c b else b) = hbRowUpd env b b
      simpa [hcb] using hrest

/-- find? by id commutes with mapping an id-preserving rewrite. -/
theorem find?_map_id_preserving (g : BotRow → BotRow) (hg : ∀ b, (g b).id = b.id)
    (bots : List BotRow) (id2 : String) :
    (bots.map g).find? (fun b => b.id == id2) =
      (bots.find? (fun b => b.id == id2)).map g := by
  rw [List.find?_map]
  have hpred : ((fun b : BotRow => b.id == id2) ∘ g) = (fun b : BotRow => b.id == id2) := by
    funext b
    simp [Function.comp, hg b]
  rw [hpred]

/-- On a bots table with distinct ids, find? by a member's id returns it. -/
theorem find?_of_mem_nodup (bots : List BotRow) (b : BotRow) (hmem : b ∈ bots)
    (hnd : (bots.map (fun x => x.id)).Nodup) :
    bots.find? (fun x => x.id == b.id) = some b := by
  induction bots with
  | nil => cases hmem
  | cons c t ih =>
    have hnd' : (t.map (fun x => x.id)).Nodup := (List.nodup_cons.mp hnd).2
    have hhead : c.id ∉ t.map (fun x => x.id) := (List.nodup_cons.mp hnd).1
    rcases List.mem_cons.mp hmem with rfl | hmem'
    · simp [List.find?]
    · have hcb : (c.id == b.id) = false := by
        simp only [beq_eq_false_iff_ne]
        exact fun hcb => hhead (hcb ▸ List.mem_map_of_mem (fun y => y.id) hmem')
      rw [List.find?_cons, hcb]
      exact ih hmem' hnd'

/-- Witness for restart_behavior on the sample store. -/
theorem restart_behavior_witness :
    (⟨"u1", true⟩ : Caller).emailConfirmed = true ∧ sampleEnv.writeOk = true ∧
    verifyBotOwnership sampleState "u1" "b1" = true ∧
    (botManager (some ⟨"u1", true⟩) { action := .restart, botId := some "b1" }
      sampleEnv sampleState).2.logs =
      sampleState.logs ++ [⟨"b1", "info", "Restarting bot..."⟩,
        ⟨"b1", "info", "Bot restarted successfully"⟩,
        ⟨"b1", "info", "New container " ++ sampleEnv.containerId ++ " is running"⟩] :=
  ⟨rfl, rfl, rfl,
    (restart_behavior ⟨"u1", true⟩ "b1" sampleEnv sampleState rfl rfl rfl).2.1⟩

/-- C7: in one sweep the reported botsUpdated equals exactly the number of
online bots whose row update succeeded; a resource-history row is appended
exactly for those bots, in order; and any online bot whose own update
succeeds ends rewritten in the store no matter which other bots' updates
fail — a single failing bot never aborts the rest of the sweep. -/
theorem heartbeat_partial_failure (a : Option String) (env : HbEnv) (σ : DbState)
    (hids : (σ.bots.map (fun b => b.id)).Nodup) :
    (botHeartbeat a env σ).1.botsUpdated =
      ((σ.bots.filter (fun b => b.status == .online)).filter
        (fun b => env.updateOk b.id)).length ∧
    (botHeartbeat a env σ).2.history =
      σ.history ++ ((σ.bots.filter (fun b => b.status == .online)).filter
        (fun b => env.updateOk b.id)).map (hbSampleOf env) ∧
    (∀ b ∈ σ.bots, b.status = BotStatus.online → env.updateOk b.id = true →
      findBot (botHeartbeat a env σ).2 b.id = some (hbRowUpd env b b)) := by
  refine ⟨by simp [botHeartbeat, hbFold_spec], by simp [botHeartbeat, hbFold_spec], ?_⟩
  intro b hb hbon hok
  have hbmem : b ∈ σ.bots.filter (fun x => x.status == BotStatus.online) :=
    List.mem_filter.mpr ⟨hb, by simp [hbon]⟩
  have hndr : ((σ.bots.filter (fun x => x.status == BotStatus.online)).map
      (fun x => x.id)).Nodup :=
    List.Nodup.sublist (List.Sublist.map (fun x => x.id) (List.filter_sublist σ.bots)) hids
  have hcomp := hbComposite_unique env _ b hbmem hndr hok
  simp only [botHeartbeat, hbFold_spec]
  unfold findBot
  rw [find?_map_id_preserving (hbComposite env _) (hbComposite_id env _) σ.bots b.id,
    find?_of_mem_nodup σ.bots b hb hids]
  simp [hcomp]

/-- Witness for heartbeat_partial_failure: two online bots, b1's write
fails, and the reported count is exactly 1. -/
theorem heartbeat_partial_failure_witness :
    (twoBotState.bots.map (fun b => b.id)).Nodup ∧
    (botHeartbeat none sampleHbEnv twoBotState).1.botsUpdated =
      ((twoBotState.bots.filter (fun b => b.status == .online)).filter
        (fun b => sampleHbEnv.updateOk b.id)).length ∧
    ((twoBotState.bots.filter (fun b => b.status == .online)).filter
        (fun b => sampleHbEnv.updateOk b.id)).length = 1 :=
  ⟨by decide,
    (heartbeat_partial_failure none sampleHbEnv twoBotState (by decide)).1,
    rfl⟩

/-- C10: the heartbeat handler never reads the caller's credential — two
runs with different (or missing) Authorization values are equal in both
response and store effect — and the sweep covers every bots row in online
status regardless of its owner: the reported count totals all online bots
with a successful update across all users, and one history row is appended
for each of them. -/
theorem heartbeat_ignores_auth (a1 a2 : Option String) (env : HbEnv) (σ : DbState) :
    botHeartbeat a1 env σ = botHeartbeat a2 env σ ∧
    (botHeartbeat a1 env σ).1.botsUpdated =
      ((σ.bots.filter (fun b => b.status == .online)).filter
        (fun b => env.updateOk b.id)).length ∧
    (botHeartbeat a1 env σ).2.history =
      σ.history ++ ((σ.bots.filter (fun b => b.status == .online)).filter
        (fun b => env.updateOk b.id)).map (hbSampleOf env) := by
  refine ⟨rfl, ?_, ?_⟩ <;> simp [botHeartbeat, hbFold_spec]

/-- A JS round of a nonnegative number is nonnegative. -/
theorem jsRound_nonneg (x : ℚ) (h : 0 ≤ x) : 0 ≤ jsRound x := by
  unfold jsRound
  exact Int.floor_nonneg.mpr (by linarith)

/-- Both simulator outputs are nonnegative for draws in [0, 1). -/
theorem sim_nonneg (r1 r2 : ℚ) (h1 : 0 ≤ r1) (h2 : 0 ≤ r2) :
    0 ≤ (simulateResourceUsage r1 r2).1 ∧ 0 ≤ (simulateResourceUsage r1 r2).2 := by
  unfold simulateResourceUsage
  constructor <;>
    exact div_nonneg (Int.cast_nonneg.mpr (jsRound_nonneg _ (by nlinarith))) (by norm_num)

/-- The clamp trigger turns any write with nonnegative values into a row
inside the resource bounds. -/
theorem rowInv_clamped (b : BotRow) (h1 : 0 ≤ b.cpuUsage) (h2 : 0 ≤ b.memoryUsage) :
    RowInv (validate_resource_limits b) := by
  unfold RowInv validate_resource_limits
  refine ⟨?_, ?_, ?_, ?_⟩ <;> simp only [] <;> split_ifs <;> linarith

/-- An UPDATE whose written values are nonnegative preserves the store
invariant. -/
theorem storeInv_update (σ : DbState) (id : String) (f : BotRow → BotRow)
    (hσ : StoreInv σ)
    (hf : ∀ b ∈ σ.bots, 0 ≤ (f b).cpuUsage ∧ 0 ≤ (f b).memoryUsage) :
    StoreInv (updateBotRow σ id f) := by
  intro b hb
  unfold updateBotRow at hb
  simp only [List.mem_map] at hb
  obtain ⟨c, hc, hbc⟩ := hb
  subst hbc
  by_cases h : (c.id == id) = true
  · rw [if_pos h]
    exact rowInv_clamped _ (hf c hc).1 (hf c hc).2
  · rw [if_neg h]
    exact hσ c hc

/-- A successful INSERT whose written values are nonnegative preserves the
store invariant. -/
theorem storeInv_insert (σ : DbState) (row : BotRow) (σ2 : DbState)
    (hσ : StoreInv σ) (h1 : 0 ≤ row.cpuUsage) (h2 : 0 ≤ row.memoryUsage)
    (hins : insertBotRow σ row = .ok σ2) : StoreInv σ2 := by
  unfold insertBotRow at hins
  by_cases h : check_bot_limit σ row = true
  · rw [if_pos h] at hins
    cases hins
    intro b hb
    rcases List.mem_append.mp hb with hb1 | hb2
    · exact hσ b hb1
    · rw [List.mem_singleton.mp hb2]
      exact rowInv_clamped row h1 h2
  · rw [if_neg h] at hins
    cases hins

/-- A cascading DELETE preserves the store invariant. -/
theorem storeInv_delete (σ : DbState) (id : String) (hσ : StoreInv σ) :
    StoreInv (deleteBotCascade σ id) :=
  fun b hb => hσ b (List.mem_of_mem_filter hb)

/-- The sweep's cpu sample is nonnegative for valid draws. -/
theorem hbCpu_nonneg (env : HbEnv) (henv : ValidHbEnv env) (b : BotRow) : 0 ≤ hbCpu env b := by
  unfold hbCpu
  have h := (henv b.id).1
  exact div_nonneg (Int.cast_nonneg.mpr (jsRound_nonneg _ (by nlinarith))) (by norm_num)

/-- The sweep's memory sample is nonnegative for valid draws. -/
theorem hbMem_nonneg (env : HbEnv) (henv : ValidHbEnv env) (b : BotRow) : 0 ≤ hbMem env b := by
  unfold hbMem
  have h := (henv b.id).2.2.1
  exact div_nonneg (Int.cast_nonneg.mpr (jsRound_nonneg _ (by nlinarith))) (by norm_num)

/-- One sweep rewrite lands inside the resource bounds for valid draws. -/
theorem rowInv_hbRowUpd (env : HbEnv) (henv : ValidHbEnv env) (b r : BotRow) :
    RowInv (hbRowUpd env b r) :=
  rowInv_clamped _ (hbCpu_nonneg env henv b) (hbMem_nonneg env henv b)

/-- The composite sweep effect keeps a row inside the resource bounds. -/
theorem rowInv_hbComposite (env : HbEnv) (henv : ValidHbEnv env) (l : List BotRow) (r : BotRow)
    (hr : RowInv r) : RowInv (hbComposite env l r) := by
  induction l generalizing r with
  | nil => exact hr
  | cons b t ih =>
    show RowInv (hbComposite env t
      (if env.updateOk b.id && r.id == b.id then hbRowUpd env b r else r))
    by_cases h : (env.updateOk b.id && r.id == b.id) = true
    · rw [if_pos h]
      exact ih _ (rowInv_hbRowUpd env henv b r)
    · rw [if_neg h]
      exact ih r hr

/-- The manager's action dispatch preserves the store invariant for valid
environments. -/
theorem storeInv_botManagerAction (user : Caller) (req : BotActionReq) (env : OpEnv)
    (σ : DbState) (henv : ValidOpEnv env) (hσ : StoreInv σ) :
    StoreInv (botManagerAction user req env σ).2 := by
  obtain ⟨henv1, henv2, henv3, henv4⟩ := henv
  have hsim := sim_nonneg env.r1 env.r2 henv1 henv3
  obtain ⟨act, botId, nm, pf, rt, sc, ev⟩ := req
  cases act <;> simp only [botManagerAction] <;> repeat' split
  all_goals try exact hσ
  all_goals try exact storeInv_delete σ _ hσ
  all_goals try exact storeInv_update σ _ _ hσ (fun b _ => ⟨hsim.1, hsim.2⟩)
  all_goals try exact storeInv_update σ _ _ hσ (fun b _ => ⟨le_refl 0, le_refl 0⟩)
  all_goals rename_i σ1 hins
  all_goals exact storeInv_insert σ _ σ1 hσ (by norm_num) (by norm_num) hins

/-- C1: every write path of every operation keeps each bots row inside the
resource bounds (cpu in [0, 10], memory in [0, 50]); a written value above
either ceiling is clamped to the ceiling by the trigger; and a bots insert
is rejected only by the quota check, never because of its resource values
— updates are never rejected at all. -/
theorem resource_write_invariant (op : SysOp) (σ : DbState)
    (hop : ValidSysOp op) (hσ : StoreInv σ) :
    StoreInv (runSysOp op σ) ∧
    (∀ b : BotRow, 10 < b.cpuUsage → (validate_resource_limits b).cpuUsage = 10) ∧
    (∀ b : BotRow, 50 < b.memoryUsage → (validate_resource_limits b).memoryUsage = 50) ∧
    (∀ (σ2 : DbState) (row : BotRow),
      insertBotRow σ2 row = .error "Bot limit exceeded. Maximum 3 bots allowed per user."
        ↔ 3 ≤ botCountOf σ2 row.userId) ∧
    (∀ (σ2 : DbState) (id : String) (f : BotRow → BotRow),
      (updateBotRow σ2 id f).bots.length = σ2.bots.length) := by
  refine ⟨?_, ?_, ?_, ?_, ?_⟩
  · cases op with
    | manager auth req env =>
      cases auth with
      | none => exact hσ
      | some user =>
        show StoreInv (botManager (some user) req env σ).2
        unfold botManager
        by_cases hver : user.emailConfirmed
        · simp only [hver, Bool.not_true, if_neg Bool.false_ne_true]
          exact storeInv_botManagerAction user req env σ hop hσ
        · simp only [Bool.not_eq_true] at hver
          simp only [hver, Bool.not_false, if_pos rfl]
          exact hσ
    | heartbeat a env =>
      show StoreInv (botHeartbeat a env σ).2
      simp only [botHeartbeat, hbFold_spec]
      intro b hb
      simp only [List.mem_map] at hb
      obtain ⟨c, hc, hbc⟩ := hb
      subst hbc
      exact rowInv_hbComposite env hop _ c (hσ c hc)
  · intro b hb
    simp [validate_resource_limits, hb]
  · intro b hb
    simp [validate_resource_limits, hb]
  · intro σ2 row
    unfold insertBotRow check_bot_limit
    by_cases h : botCountOf σ2 row.userId < 3
    · simp [h]
    · simp [h]
      omega
  · intro σ2 id f
    unfold updateBotRow
    exact List.length_map σ2.bots _

/-- Witness for resource_write_invariant: a stop of the sample bot in the
sample store with valid draws. -/
theorem resource_write_invariant_witness :
    ValidSysOp (.manager (some ⟨"u1", true⟩) { action := .stop, botId := some "b1" } sampleEnv) ∧
    StoreInv sampleState ∧
    StoreInv (runSysOp
      (.manager (some ⟨"u1", true⟩) { action := .stop, botId := some "b1" } sampleEnv)
      sampleState) := by
  have h1 : ValidSysOp
      (.manager (some ⟨"u1", true⟩) { action := .stop, botId := some "b1" } sampleEnv) := by
    refine ⟨?_, ?_, ?_, ?_⟩ <;> decide
  have h2 : StoreInv sampleState := by
    intro b hb
    rcases List.mem_singleton.mp hb with rfl
    refine ⟨?_, ?_, ?_, ?_⟩ <;> decide
  exact ⟨h1, h2,
    (resource_write_invariant
      (.manager (some ⟨"u1", true⟩) { action := .stop, botId := some "b1" } sampleEnv)
      sampleState h1 h2).1⟩

/-- Lookup after one upsert: the upserted key gains the sample, every other
key is untouched. -/
theorem bLookup_upsert (acc : List (Int × HourBucket)) (h h2 : Int) (s : SampleRow) :
    bLookup (upsertSample acc h s) h2 =
      if h == h2 then some (bucketAdd ((bLookup acc h2).getD emptyBucket) s)
      else bLookup acc h2 := by
  induction acc with
  | nil =>
    by_cases hh : h = h2 <;> simp [upsertSample, bLookup, hh]
  | cons p rest ih =>
    obtain ⟨k, b⟩ := p
    by_cases hkh : k = h
    · subst hkh
      by_cases hh2 : k = h2 <;> simp [upsertSample, bLookup, hh2]
    · by_cases hkh2 : k = h2
      · subst hkh2
        have hne : h ≠ k := fun hc => hkh hc.symm
        simp [upsertSample, bLookup, hkh, hne]
      · simp [upsertSample, bLookup, hkh, hkh2, ih]

/-- Lookup after the whole accumulation loop: the bucket of an hour is the
fold of the samples of that hour over the starting bucket. -/
theorem bLookup_fold (l : List SampleRow) (acc : List (Int × HourBucket)) (h : Int) :
    bLookup (l.foldl (fun acc s => upsertSample acc (hourOf s.recordedAt) s) acc) h =
      (l.filter (fun s => hourOf s.recordedAt == h)).foldl
        (fun ob s => some (bucketAdd (ob.getD emptyBucket) s)) (bLookup acc h) := by
  induction l generalizing acc with
  | nil => rfl
  | cons s t ih =>
    rw [List.foldl_cons, ih, List.filter_cons]
    by_cases hs : hourOf s.recordedAt = h
    · simp [hs, bLookup_upsert]
    · simp [hs, bLookup_upsert]

/-- Folding bucketAdd over a sample list from a present bucket. -/
theorem fold_bucketAdd (t : List SampleRow) (b : HourBucket) :
    t.foldl (fun ob s => some (bucketAdd (ob.getD emptyBucket) s)) (some b) =
      some ⟨b.cpu ++ t.map (fun s => s.cpuUsage), b.memory ++ t.map (fun s => s.memoryUsage),
            b.count + t.length⟩ := by
  induction t generalizing b with
  | nil => simp
  | cons s t ih =>
    rw [List.foldl_cons]
    show t.foldl _ (some (bucketAdd b s)) = _
    rw [ih (bucketAdd b s)]
    simp [bucketAdd]
    omega

/-- The bucket the loop built for an hour holds exactly the samples of that
hour, in order. -/
theorem bLookup_hourlyMetrics (l : List SampleRow) (h : Int) :
    bLookup (hourlyMetrics l) h =
      if (l.filter (fun s => hourOf s.recordedAt == h)).isEmpty then none
      else some ⟨(l.filter (fun s => hourOf s.recordedAt == h)).map (fun s => s.cpuUsage),
                 (l.filter (fun s => hourOf s.recordedAt == h)).map (fun s => s.memoryUsage),
                 (l.filter (fun s => hourOf s.recordedAt == h)).length⟩ := by
  unfold hourlyMetrics
  rw [bLookup_fold l [] h]
  cases hf : l.filter (fun s => hourOf s.recordedAt == h) with
  | nil => rfl
  | cons s t =>
    rw [List.foldl_cons]
    show t.foldl _ (some (bucketAdd emptyBucket s)) = _
    rw [fold_bucketAdd t (bucketAdd emptyBucket s)]
    simp [bucketAdd, emptyBucket]
    omega

/-- Keys after one upsert: a present key keeps the key list, a new key goes
to the end (JS property insertion order). -/
theorem bKeys_upsert (acc : List (Int × HourBucket)) (h : Int) (s : SampleRow) :
    bKeys (upsertSample acc h s) =
      if h ∈ bKeys acc then bKeys acc else bKeys acc ++ [h] := by
  induction acc with
  | nil => simp [upsertSample, bKeys]
  | cons p rest ih =>
    obtain ⟨k, b⟩ := p
    by_cases hkh : k = h
    · subst hkh
      simp [upsertSample, bKeys]
    · have hne : h ≠ k := fun hc => hkh hc.symm
      have hupcons : upsertSample ((k, b) :: rest) h s = (k, b) :: upsertSample rest h s := by
        simp [upsertSample, hkh]
      rw [hupcons,
        show bKeys ((k, b) :: upsertSample rest h s) = k :: bKeys (upsertSample rest h s)
          from rfl,
        ih, show bKeys ((k, b) :: rest) = k :: bKeys rest from rfl]
      by_cases hmem : h ∈ bKeys rest
      · rw [if_pos hmem, if_pos (List.mem_cons_of_mem k hmem)]
      · have hnotin : h ∉ k :: bKeys rest := by
          intro hc
          rcases List.mem_cons.mp hc with h1 | h2
          · exact hne h1
          · exact hmem h2
        rw [if_neg hmem, if_neg hnotin]
        rfl

/-- The accumulation loop keeps the key list duplicate-free. -/
theorem bKeys_fold_nodup (l : List SampleRow) (acc : List (Int × HourBucket))
    (hacc : (bKeys acc).Nodup) :
    (bKeys (l.foldl (fun acc s => upsertSample acc (hourOf s.recordedAt) s) acc)).Nodup := by
  induction l generalizing acc with
  | nil => exact hacc
  | cons s t ih =>
    rw [List.foldl_cons]
    refine ih _ ?_
    rw [bKeys_upsert]
    by_cases hmem : hourOf s.recordedAt ∈ bKeys acc
    · rw [if_pos hmem]
      exact hacc
    · rw [if_neg hmem]
      simp [List.nodup_append, hacc, hmem]

/-- An hour is a key of the loop's output exactly when some processed
sample falls in it (or it was already a key). -/
theorem bKeys_fold_mem (l : List SampleRow) (acc : List (Int × HourBucket)) (h : Int) :
    h ∈ bKeys (l.foldl (fun acc s => upsertSample acc (hourOf s.recordedAt) s) acc) ↔
      h ∈ bKeys acc ∨ h ∈ l.map (fun s => hourOf s.recordedAt) := by
  induction l generalizing acc with
  | nil => simp
  | cons s t ih =>
    rw [List.foldl_cons, ih, bKeys_upsert, List.map_cons]
    by_cases hmem : hourOf s.recordedAt ∈ bKeys acc
    · rw [if_pos hmem, List.mem_cons]
      constructor
      · rintro (hk | ht)
        · exact Or.inl hk
        · exact Or.inr (Or.inr ht)
      · rintro (hk | hs2 | ht)
        · exact Or.inl hk
        · exact Or.inl (hs2 ▸ hmem)
        · exact Or.inr ht
    · rw [if_neg hmem, List.mem_cons, List.mem_append, List.mem_singleton]
      tauto

/-- With samples arriving in nondecreasing hour order, the key list stays
strictly increasing. -/
theorem bKeys_fold_sorted (l : List SampleRow) (acc : List (Int × HourBucket))
    (hacc : (bKeys acc).Sorted (· < ·))
    (hbound : ∀ k ∈ bKeys acc, ∀ s ∈ l, k ≤ hourOf s.recordedAt)
    (hl : l.Pairwise (fun a b => hourOf a.recordedAt ≤ hourOf b.recordedAt)) :
    (bKeys (l.foldl (fun acc s => upsertSample acc (hourOf s.recordedAt) s) acc)).Sorted
      (· < ·) := by
  induction l generalizing acc with
  | nil => exact hacc
  | cons s t ih =>
    rw [List.foldl_cons]
    have hlt := List.pairwise_cons.mp hl
    refine ih _ ?_ ?_ hlt.2
    · rw [bKeys_upsert]
      by_cases hmem : hourOf s.recordedAt ∈ bKeys acc
      · rw [if_pos hmem]
        exact hacc
      · rw [if_neg hmem]
        rw [List.Sorted, List.pairwise_append]
        refine ⟨hacc, List.pairwise_singleton _ _, ?_⟩
        intro k hk h1 hh1
        rw [List.mem_singleton.mp hh1]
        rcases lt_or_eq_of_le (hbound k hk s (List.mem_cons_self s t)) with hlt2 | heq
        · exact hlt2
        · exact absurd (heq ▸ hk) hmem
    · intro k hk s2 hs2
      rw [bKeys_upsert] at hk
      by_cases hmem : hourOf s.recordedAt ∈ bKeys acc
      · rw [if_pos hmem] at hk
        exact hbound k hk s2 (List.mem_cons_of_mem s hs2)
      · rw [if_neg hmem] at hk
        rcases List.mem_append.mp hk with hk1 | hk2
        · exact hbound k hk1 s2 (List.mem_cons_of_mem s hs2)
        · rw [List.mem_singleton.mp hk2]
          exact hlt.1 s2 hs2

/-- An accumulator with duplicate-free keys is the map of its own lookups
over its key list. -/
theorem assoc_entries (acc : List (Int × HourBucket)) (hnd : (bKeys acc).Nodup) :
    acc = (bKeys acc).map (fun h => (h, (bLookup acc h).getD emptyBucket)) := by
  induction acc with
  | nil => rfl
  | cons p rest ih =>
    obtain ⟨k, b⟩ := p
    have hnd' : (bKeys rest).Nodup := (List.nodup_cons.mp hnd).2
    have hk : k ∉ bKeys rest := (List.nodup_cons.mp hnd).1
    show (k, b) :: rest = ((k :: bKeys rest).map
      (fun h => (h, (bLookup ((k, b) :: rest) h).getD emptyBucket)))
    rw [List.map_cons]
    have hhead : (bLookup ((k, b) :: rest) k).getD emptyBucket = b := by
      simp [bLookup]
    rw [hhead]
    have htail : (bKeys rest).map (fun h => (h, (bLookup ((k, b) :: rest) h).getD emptyBucket))
        = (bKeys rest).map (fun h => (h, (bLookup rest h).getD emptyBucket)) := by
      refine List.map_congr_left ?_
      intro h hh
      have hne : (k == h) = false := by
        simp only [beq_eq_false_iff_ne]
        exact fun hc => hk (hc ▸ hh)
      simp [bLookup, hne]
    rw [htail, ← ih hnd']

/-- The spec-worded point of one hour is permutation-invariant in the
sample list (means and labels ignore order). -/
theorem specHourPoint_perm (l l2 : List SampleRow) (hp : l.Perm l2) (h : Int) :
    specHourPoint l h = specHourPoint l2 h := by
  unfold specHourPoint
  have hb : (l.filter (fun s => hourOf s.recordedAt == h)).Perm
      (l2.filter (fun s => hourOf s.recordedAt == h)) := hp.filter _
  simp only []
  rw [hb.length_eq, (hb.map (fun s => s.cpuUsage)).sum_eq,
    (hb.map (fun s => s.memoryUsage)).sum_eq]

/-- The spec-worded chart is permutation-invariant in the sample list. -/
theorem chartSpecData_perm (l l2 : List SampleRow) (hp : l.Perm l2) :
    chartSpecData l = chartSpecData l2 := by
  unfold chartSpecData
  rw [List.toFinset_eq_of_perm _ _ (hp.map _)]
  exact List.map_congr_left fun h _ => specHourPoint_perm l l2 hp h

/-- On a sample list whose hours arrive in nondecreasing order (what the
recorded_at-ascending query delivers), the source loop computes exactly the
spec-worded chart. -/
theorem chartDataOf_sorted (l : List SampleRow)
    (hl : l.Pairwise (fun a b => hourOf a.recordedAt ≤ hourOf b.recordedAt)) :
    chartDataOf l = chartSpecData l := by
  have hfold : hourlyMetrics l =
      l.foldl (fun acc s => upsertSample acc (hourOf s.recordedAt) s) [] := rfl
  have hndK : (bKeys (hourlyMetrics l)).Nodup := by
    rw [hfold]
    exact bKeys_fold_nodup l [] (by simp [bKeys])
  have hsortK : (bKeys (hourlyMetrics l)).Sorted (· < ·) := by
    rw [hfold]
    exact bKeys_fold_sorted l [] (by simp [bKeys, List.Sorted]) (by simp [bKeys]) hl
  have hmemK : ∀ h, h ∈ bKeys (hourlyMetrics l) ↔
      h ∈ l.map (fun s => hourOf s.recordedAt) := by
    intro h
    rw [hfold, bKeys_fold_mem l [] h]
    simp [bKeys]
  have hndS := Finset.sort_nodup (fun a b : Int => a ≤ b)
    ((l.map (fun s => hourOf s.recordedAt)).toFinset)
  have hsortS := Finset.sort_sorted (fun a b : Int => a ≤ b)
    ((l.map (fun s => hourOf s.recordedAt)).toFinset)
  have hmemS : ∀ h, h ∈ Finset.sort (fun a b : Int => a ≤ b)
      ((l.map (fun s => hourOf s.recordedAt)).toFinset) ↔
      h ∈ l.map (fun s => hourOf s.recordedAt) := by
    intro h
    rw [Finset.mem_sort, List.mem_toFinset]
  have hperm : (bKeys (hourlyMetrics l)).Perm (Finset.sort (fun a b : Int => a ≤ b)
      ((l.map (fun s => hourOf s.recordedAt)).toFinset)) :=
    (List.perm_ext_iff_of_nodup hndK hndS).mpr (fun a => by rw [hmemK a, hmemS a])
  have hKS : bKeys (hourlyMetrics l) = Finset.sort (fun a b : Int => a ≤ b)
      ((l.map (fun s => hourOf s.recordedAt)).toFinset) :=
    List.eq_of_perm_of_sorted hperm (hsortK.imp (fun hab => le_of_lt hab)) hsortS
  unfold chartDataOf chartSpecData
  rw [show hourlyMetrics l = (bKeys (hourlyMetrics l)).map
      (fun h => (h, (bLookup (hourlyMetrics l) h).getD emptyBucket))
    from assoc_entries (hourlyMetrics l) hndK]
  rw [List.map_map, ← hKS]
  refine List.map_congr_left ?_
  intro h hh
  obtain ⟨s, hsl, hsh⟩ := List.mem_map.mp ((hmemK h).mp hh)
  have hsf : s ∈ l.filter (fun s => hourOf s.recordedAt == h) :=
    List.mem_filter.mpr ⟨hsl, by simp [hsh]⟩
  have hne : (l.filter (fun s => hourOf s.recordedAt == h)).isEmpty = false := by
    rcases hf : l.filter (fun s => hourOf s.recordedAt == h) with _ | ⟨a, t⟩
    · rw [hf] at hsf
      cases hsf
    · rw [hf]
      rfl
  have hlook := bLookup_hourlyMetrics l h
  rw [hne] at hlook
  simp only [Bool.false_eq_true, if_false] at hlook
  simp only [Function.comp_apply, hlook, Option.getD_some]
  unfold chartPointOf specHourPoint round1
  rfl

/-- C9: the chart the resource-metrics handler emits equals, for every
store, bot selection, clock and lookback parameter (default 24 hours), the
spec-worded aggregation of exactly the history rows of the selected bots
recorded at or after now minus the window: grouped by UTC-truncated hour,
one point per non-empty bucket in chronological order, the mean of cpu and
memory per bucket rounded to one decimal, labeled HH:MM. -/
theorem metrics_chart_matches_spec (σ : DbState) (botIds : List String) (now : Int)
    (hoursParam : Option Int) :
    resourceMetricsChart σ botIds now hoursParam =
      chartSpecData (σ.history.filter (fun s =>
        botIds.contains s.botId && decide (now - hoursParam.getD 24 * 3600 ≤ s.recordedAt))) := by
  unfold resourceMetricsChart fetchHistory
  have hsorted := List.sorted_insertionSort byRecordedAt
    (σ.history.filter (fun s =>
      botIds.contains s.botId && decide (now - hoursParam.getD 24 * 3600 ≤ s.recordedAt)))
  have hperm := List.perm_insertionSort byRecordedAt
    (σ.history.filter (fun s =>
      botIds.contains s.botId && decide (now - hoursParam.getD 24 * 3600 ≤ s.recordedAt)))
  have hhours : (List.insertionSort byRecordedAt
      (σ.history.filter (fun s =>
        botIds.contains s.botId &&
          decide (now - hoursParam.getD 24 * 3600 ≤ s.recordedAt)))).Pairwise
      (fun a b => hourOf a.recordedAt ≤ hourOf b.recordedAt) :=
    hsorted.imp (fun hab => Int.ediv_le_ediv (by norm_num) hab)
  rw [chartDataOf_sorted _ hhours]
  exact chartSpecData_perm _ _ hperm

end EnvoyCluster
